import Mathlib

set_option maxHeartbeats 1000000

/-!
Verification of the focus-trap / focus-monitor / list-key-manager core of the
cdk-translate repository (Angular CDK a11y primitives).

The definitions below are shallow embeddings of the TypeScript sources:
* `FocusTrapManager`   — src/src/cdk/a11y/focus-trap/polyfill.ts
* `FocusTrap`          — src/unnamed/part_000 (focus-trap.ts)
* `FocusMonitor`       — src/src/cdk/a11y/focus-monitor/focus-monitor.ts
* `ListKeyManager`     — src/src/cdk/a11y/key-manager/list-key-manager.ts
-/

namespace CdkA11y

/-! ## FocusTrapManager (polyfill.ts)

A `ManagedFocusTrap` is identified by a `TrapId`.  The manager state is the
stack of registered traps (bottom first, top of the stack last, mirroring a
JS array used with `push`) together with the enabled/disabled flag of every
trap (`_enable()` / `_disable()` set the flag of one trap). -/

/-- Identity of a `ManagedFocusTrap` (JS object identity). -/
abbrev TrapId := Nat

/-- State of the `FocusTrapManager` together with the enabled flag of every
trap.  `_focusTrapStack` lists the stack bottom-to-top. -/
structure FocusTrapManager where
  _focusTrapStack : List TrapId
  enabled : TrapId → Bool

/-- Effect of `trap._enable()` / `trap._disable()` on the enabled flags. -/
def setTrapEnabled (e : TrapId → Bool) (t : TrapId) (b : Bool) : TrapId → Bool :=
  fun x => if x = t then b else e x

/-- `FocusTrapManager.register`: dedupe the trap out of the stack, disable the
current top of the (filtered) stack if any, push the trap, enable it. -/
def FocusTrapManager.register (m : FocusTrapManager) (focusTrap : TrapId) :
    FocusTrapManager :=
  let stack := m._focusTrapStack.filter (fun ft => ft != focusTrap)
  let e :=
    match stack.getLast? with
    | some top => setTrapEnabled m.enabled top false
    | none => m.enabled
  { _focusTrapStack := stack ++ [focusTrap]
    enabled := setTrapEnabled e focusTrap true }

/-- `FocusTrapManager.deregister`: disable the trap unconditionally; if it is
in the stack (`indexOf` / `splice` removes the first occurrence), remove it
and enable the new top if the stack is still non-empty. -/
def FocusTrapManager.deregister (m : FocusTrapManager) (focusTrap : TrapId) :
    FocusTrapManager :=
  let e := setTrapEnabled m.enabled focusTrap false
  if focusTrap ∈ m._focusTrapStack then
    let stack := m._focusTrapStack.erase focusTrap
    match stack.getLast? with
    | some top => { _focusTrapStack := stack, enabled := setTrapEnabled e top true }
    | none => { _focusTrapStack := stack, enabled := e }
  else
    { _focusTrapStack := m._focusTrapStack, enabled := e }

/-- A call on the manager: either `register` or `deregister`. -/
inductive TrapOp where
  | reg (t : TrapId)
  | dereg (t : TrapId)

/-- Apply one manager call. -/
def FocusTrapManager.applyOp (m : FocusTrapManager) : TrapOp → FocusTrapManager
  | .reg t => m.register t
  | .dereg t => m.deregister t

/-- Apply a sequence of manager calls, first call first. -/
def FocusTrapManager.runOps (m : FocusTrapManager) : List TrapOp → FocusTrapManager
  | [] => m
  | op :: ops => (m.applyOp op).runOps ops

/-- The manager as it is constructed: empty stack, every trap disabled (a
`ConfigurableFocusTrap` is only enabled through the manager). -/
def initialTrapManager : FocusTrapManager :=
  { _focusTrapStack := [], enabled := fun _ => false }

/-- The single-active-trap invariant: a trap in the stack is enabled exactly
when it is the top of the stack. -/
def TrapInv (m : FocusTrapManager) : Prop :=
  ∀ x ∈ m._focusTrapStack,
    (m.enabled x = true ↔ m._focusTrapStack.getLast? = some x)

/-! ### List helper lemmas for the stack -/

theorem getLast?_filter_ne {l : List TrapId} {q t : TrapId}
    (h : l.getLast? = some q) (hq : q ≠ t) :
    (l.filter (fun ft => ft != t)).getLast? = some q := by
  have hl : l.dropLast ++ [q] = l :=
    List.dropLast_append_getLast? q (Option.mem_def.mpr h)
  rw [← hl, List.filter_append]
  have hsingle : [q].filter (fun ft => ft != t) = [q] := by
    simp [List.filter_cons, hq]
  rw [hsingle, List.getLast?_concat]

theorem getLast?_erase_ne {l : List TrapId} {q t : TrapId}
    (h : l.getLast? = some q) (hq : q ≠ t) :
    (l.erase t).getLast? = some q := by
  have hl : l.dropLast ++ [q] = l :=
    List.dropLast_append_getLast? q (Option.mem_def.mpr h)
  rw [← hl]
  by_cases hmem : t ∈ l.dropLast
  · rw [List.erase_append_left _ hmem, List.getLast?_concat]
  · rw [List.erase_append_right _ hmem]
    have hsingle : [q].erase t = [q] := by
      simp [List.erase_cons, hq]
    rw [hsingle, List.getLast?_concat]

theorem filter_ne_of_not_mem {l : List TrapId} {t : TrapId} (h : t ∉ l) :
    l.filter (fun ft => ft != t) = l := by
  apply List.filter_eq_self.mpr
  intro a ha
  simp only [bne_iff_ne, ne_eq, decide_eq_true_eq]
  intro hat
  exact h (hat ▸ ha)

theorem register_stack_eq (m : FocusTrapManager) (t : TrapId) :
    (m.register t)._focusTrapStack =
      m._focusTrapStack.filter (fun ft => ft != t) ++ [t] := rfl

theorem register_enabled_eq (m : FocusTrapManager) (t : TrapId) :
    (m.register t).enabled =
      setTrapEnabled
        (match (m._focusTrapStack.filter (fun ft => ft != t)).getLast? with
          | some top => setTrapEnabled m.enabled top false
          | none => m.enabled) t true := rfl

/-! ### Invariant preservation -/

theorem trapInv_register {m : FocusTrapManager} (h : TrapInv m) (t : TrapId) :
    TrapInv (m.register t) := by
  intro x hx
  simp only [FocusTrapManager.register] at hx ⊢
  rw [List.getLast?_concat]
  rcases hp : (m._focusTrapStack.filter (fun ft => ft != t)).getLast? with _ | p <;>
    simp only [hp]
  · -- the deduped stack was empty before the push
    rcases List.mem_append.mp hx with hxs | hxt
    · rw [List.getLast?_eq_none_iff] at hp
      rw [hp] at hxs
      simp at hxs
    · have hxt' : x = t := by simpa using hxt
      subst hxt'
      unfold setTrapEnabled
      simp
  · -- the deduped stack had top p, which register disables
    rcases List.mem_append.mp hx with hxs | hxt
    · obtain ⟨hxmem, hxbne⟩ := List.mem_filter.mp hxs
      have hxne : x ≠ t := by simpa using hxbne
      unfold setTrapEnabled
      rw [if_neg hxne]
      constructor
      · intro henab
        exfalso
        by_cases hxp : x = p
        · rw [if_pos hxp] at henab
          exact Bool.false_ne_true henab
        · rw [if_neg hxp] at henab
          have hq := (h x hxmem).mp henab
          have hfl := getLast?_filter_ne hq hxne
          rw [hp] at hfl
          exact hxp (Option.some.inj hfl).symm
      · intro hsome
        exact absurd (Option.some.inj hsome).symm hxne
    · have hxt' : x = t := by simpa using hxt
      subst hxt'
      unfold setTrapEnabled
      simp

theorem trapInv_deregister {m : FocusTrapManager} (h : TrapInv m) (t : TrapId) :
    TrapInv (m.deregister t) := by
  unfold FocusTrapManager.deregister
  by_cases hmem : t ∈ m._focusTrapStack
  · rw [if_pos hmem]
    rcases hp : (m._focusTrapStack.erase t).getLast? with _ | p <;> simp only [hp]
    · -- erased stack empty: no members, invariant vacuous
      intro x hx
      simp only at hx
      rw [List.getLast?_eq_none_iff] at hp
      rw [hp] at hx
      simp at hx
    · intro x hx
      simp only at hx ⊢
      rw [hp]
      have hxmem : x ∈ m._focusTrapStack := List.mem_of_mem_erase hx
      unfold setTrapEnabled
      constructor
      · intro henab
        by_cases hxp : x = p
        · rw [hxp]
        · rw [if_neg hxp] at henab
          by_cases hxt : x = t
          · rw [if_pos hxt] at henab
            exact absurd henab Bool.false_ne_true
          · rw [if_neg hxt] at henab
            have hq := (h x hxmem).mp henab
            have hfl := getLast?_erase_ne hq hxt
            rw [hp] at hfl
            exact absurd (Option.some.inj hfl).symm hxp
      · intro hsome
        rw [if_pos (Option.some.inj hsome).symm]
  · rw [if_neg hmem]
    intro x hx
    simp only at hx ⊢
    have hxt : x ≠ t := fun he => hmem (he ▸ hx)
    unfold setTrapEnabled
    rw [if_neg hxt]
    exact h x hx

theorem trapInv_runOps {m : FocusTrapManager} (h : TrapInv m) (ops : List TrapOp) :
    TrapInv (m.runOps ops) := by
  induction ops generalizing m with
  | nil => exact h
  | cons op ops ih =>
    cases op with
    | reg t => exact ih (trapInv_register h t)
    | dereg t => exact ih (trapInv_deregister h t)

theorem trapInv_initial : TrapInv initialTrapManager := by
  intro x hx
  simp [initialTrapManager] at hx

/-- C1: after any sequence of register/deregister calls starting from the
initial manager, if the stack is non-empty then exactly one trap in it is
enabled and that trap is the top of the stack; if the stack is empty, no
trap in it is enabled. -/
theorem focusTrapManager_single_enabled_invariant (ops : List TrapOp) :
    (((initialTrapManager.runOps ops)._focusTrapStack = []) →
      ∀ x ∈ (initialTrapManager.runOps ops)._focusTrapStack,
        (initialTrapManager.runOps ops).enabled x = false) ∧
    (((initialTrapManager.runOps ops)._focusTrapStack ≠ []) →
      ∃ top, (initialTrapManager.runOps ops)._focusTrapStack.getLast? = some top ∧
        top ∈ (initialTrapManager.runOps ops)._focusTrapStack ∧
        (initialTrapManager.runOps ops).enabled top = true ∧
        ∀ x ∈ (initialTrapManager.runOps ops)._focusTrapStack,
          (initialTrapManager.runOps ops).enabled x = true → x = top) := by
  have hinv := trapInv_runOps trapInv_initial ops
  set m := initialTrapManager.runOps ops with hm
  constructor
  · intro hempty x hx
    rw [hempty] at hx
    simp at hx
  · intro hne
    rcases htop : m._focusTrapStack.getLast? with _ | top
    · rw [List.getLast?_eq_none_iff] at htop
      exact absurd htop hne
    · have htopmem : top ∈ m._focusTrapStack :=
        List.mem_of_mem_getLast? (Option.mem_def.mpr htop)
      refine ⟨top, rfl, ?_, ?_, ?_⟩
      · exact htopmem
      · exact (hinv top htopmem).mpr htop
      · intro x hx henab
        have := (hinv x hx).mp henab
        rw [htop] at this
        exact (Option.some_injective _ this).symm

/-- C1 witness: after `register 1; register 2` the stack is non-empty and the
invariant instance produced by the theorem holds. -/
theorem focusTrapManager_single_enabled_invariant_witness :
    (initialTrapManager.runOps [TrapOp.reg 1, TrapOp.reg 2])._focusTrapStack ≠ [] ∧
    (∃ top,
      (initialTrapManager.runOps [TrapOp.reg 1, TrapOp.reg 2])._focusTrapStack.getLast?
        = some top ∧
      top ∈ (initialTrapManager.runOps [TrapOp.reg 1, TrapOp.reg 2])._focusTrapStack ∧
      (initialTrapManager.runOps [TrapOp.reg 1, TrapOp.reg 2]).enabled top = true ∧
      ∀ x ∈ (initialTrapManager.runOps [TrapOp.reg 1, TrapOp.reg 2])._focusTrapStack,
        (initialTrapManager.runOps [TrapOp.reg 1, TrapOp.reg 2]).enabled x = true →
          x = top) :=
  ⟨by decide,
   (focusTrapManager_single_enabled_invariant [TrapOp.reg 1, TrapOp.reg 2]).2 (by decide)⟩

/-- C2: from any starting state, registering distinct traps t1 then t2 leaves
t2 enabled and t1 disabled; deregistering t2 re-enables t1.  (`register`
dedupes the stack, disables the current top, pushes and enables the new
trap.) -/
theorem focusTrapManager_register_pair (m : FocusTrapManager) (t1 t2 : TrapId)
    (hne : t1 ≠ t2) :
    ((m.register t1).register t2).enabled t2 = true ∧
    ((m.register t1).register t2).enabled t1 = false ∧
    (((m.register t1).register t2).deregister t2).enabled t1 = true := by
  -- the stack deduped for the second register ends with t1
  have hfil : ((m.register t1)._focusTrapStack).filter (fun ft => ft != t2)
      = (m._focusTrapStack.filter (fun ft => ft != t1)).filter (fun ft => ft != t2)
        ++ [t1] := by
    rw [register_stack_eq, List.filter_append]
    congr 1
    simp [List.filter_cons, hne]
  have hlast :
      (((m.register t1)._focusTrapStack).filter (fun ft => ft != t2)).getLast?
        = some t1 := by
    rw [hfil, List.getLast?_concat]
  have h2 : ((m.register t1).register t2).enabled t2 = true := by
    rw [register_enabled_eq]
    unfold setTrapEnabled
    simp
  have h1 : ((m.register t1).register t2).enabled t1 = false := by
    rw [register_enabled_eq]
    simp only [hlast]
    unfold setTrapEnabled
    rw [if_neg hne, if_pos rfl]
  have hmem2 : t2 ∈ ((m.register t1).register t2)._focusTrapStack := by
    rw [register_stack_eq]
    exact List.mem_append_right _ (List.mem_singleton.mpr rfl)
  have hnotmem : t2 ∉ ((m.register t1)._focusTrapStack).filter (fun ft => ft != t2) := by
    intro hmem
    have := (List.mem_filter.mp hmem).2
    simp at this
  have herase : (((m.register t1).register t2)._focusTrapStack).erase t2
      = ((m.register t1)._focusTrapStack).filter (fun ft => ft != t2) := by
    rw [register_stack_eq, List.erase_append_right _ hnotmem]
    simp [List.erase_cons]
  refine ⟨h2, h1, ?_⟩
  unfold FocusTrapManager.deregister
  rw [if_pos hmem2]
  simp only [herase, hlast]
  unfold setTrapEnabled
  rw [if_pos rfl]

/-- C2 witness at the empty manager with traps 1 and 2. -/
theorem focusTrapManager_register_pair_witness :
    (1 : TrapId) ≠ 2 ∧
    ((initialTrapManager.register 1).register 2).enabled 2 = true ∧
    ((initialTrapManager.register 1).register 2).enabled 1 = false ∧
    (((initialTrapManager.register 1).register 2).deregister 2).enabled 1 = true :=
  ⟨by decide, focusTrapManager_register_pair initialTrapManager 1 2 (by decide)⟩

/-- C8 counterexample: with starting state stack = [1] where trap 1 is
disabled (a state the claim's universal quantifier admits), registering then
deregistering trap 2 changes trap 1's status from disabled to enabled, so the
round trip does not preserve the status of the previously existing top. -/
theorem focusTrapManager_roundtrip_counterexample :
    ((FocusTrapManager.register
        { _focusTrapStack := [1], enabled := fun _ => false } 2).deregister 2).enabled 1
      = true ∧
    (FocusTrapManager.mk [1] (fun _ => false)).enabled 1 = false := by
  constructor
  · decide
  · decide

/-- C8 (amended): for every starting state whose top trap (if any) is enabled
— as in every reachable state — and every trap t not in the stack,
`register t` followed by `deregister t` restores the stack contents and the
enabled status of every trap in the stack. -/
theorem focusTrapManager_roundtrip (m : FocusTrapManager) (t : TrapId)
    (hnotmem : t ∉ m._focusTrapStack)
    (htop : ∀ q, m._focusTrapStack.getLast? = some q → m.enabled q = true) :
    ((m.register t).deregister t)._focusTrapStack = m._focusTrapStack ∧
    ∀ x ∈ m._focusTrapStack,
      ((m.register t).deregister t).enabled x = m.enabled x := by
  have hfil : m._focusTrapStack.filter (fun ft => ft != t) = m._focusTrapStack :=
    filter_ne_of_not_mem hnotmem
  have hstack1 : (m.register t)._focusTrapStack = m._focusTrapStack ++ [t] := by
    rw [register_stack_eq, hfil]
  have hmem : t ∈ (m.register t)._focusTrapStack := by
    rw [hstack1]
    exact List.mem_append_right _ (List.mem_singleton.mpr rfl)
  have herase : ((m.register t)._focusTrapStack).erase t = m._focusTrapStack := by
    rw [hstack1, List.erase_append_right _ hnotmem]
    simp [List.erase_cons]
  unfold FocusTrapManager.deregister
  rw [if_pos hmem]
  simp only [herase]
  rcases hq : m._focusTrapStack.getLast? with _ | q <;> simp only [hq]
  · constructor
    · trivial
    · intro x hx
      rw [List.getLast?_eq_none_iff] at hq
      rw [hq] at hx
      simp at hx
  · constructor
    · trivial
    · intro x hx
      have hxt : x ≠ t := fun he => hnotmem (he ▸ hx)
      by_cases hxq : x = q
      · subst hxq
        unfold setTrapEnabled
        rw [if_pos rfl]
        exact (htop x hq).symm
      · unfold setTrapEnabled
        rw [if_neg hxq, if_neg hxt]
        rw [register_enabled_eq]
        have hfl : (m._focusTrapStack.filter (fun ft => ft != t)).getLast? = some q := by
          rw [hfil]
          exact hq
        simp only [hfl]
        unfold setTrapEnabled
        rw [if_neg hxt, if_neg hxq]

/-- C8 witness: stack [5] with trap 5 enabled, round-tripping trap 7. -/
theorem focusTrapManager_roundtrip_witness :
    ((7 : TrapId) ∉ (FocusTrapManager.mk [5] (fun x => x == 5))._focusTrapStack) ∧
    (((FocusTrapManager.mk [5] (fun x => x == 5)).register 7).deregister
        7)._focusTrapStack = (FocusTrapManager.mk [5] (fun x => x == 5))._focusTrapStack ∧
    ∀ x ∈ (FocusTrapManager.mk [5] (fun x => x == 5))._focusTrapStack,
      (((FocusTrapManager.mk [5] (fun x => x == 5)).register 7).deregister 7).enabled x
        = (FocusTrapManager.mk [5] (fun x => x == 5)).enabled x :=
  ⟨by decide,
   focusTrapManager_roundtrip (FocusTrapManager.mk [5] (fun x => x == 5)) 7
     (by decide)
     (by
       intro q hqq
       simp only [List.getLast?_singleton] at hqq
       have hq5 : q = 5 := by
         exact (Option.some.inj hqq).symm
       subst hq5
       decide)⟩

/-! ## ListKeyManager (list-key-manager.ts)

Items are plain records: `disabled` mirrors `ListKeyManagerOption.disabled`
and `getLabel` is `some s` when the item implements `getLabel()` returning
`s`, `none` when it does not.  The manager state carries the item collection
(the plain-array case of the constructor) and all configuration fields. -/

/-- Keycodes from `@angular/cdk/keycodes` used by `onKeydown`. -/
def TAB : Nat := 9

def END : Nat := 35

def HOME : Nat := 36

def LEFT_ARROW : Nat := 37

def UP_ARROW : Nat := 38

def RIGHT_ARROW : Nat := 39

def DOWN_ARROW : Nat := 40

def ZERO : Nat := 48

def NINE : Nat := 57

def A : Nat := 65

def Z : Nat := 90

/-- A `ListKeyManagerOption` item.  JS strings are modelled as `List Char`
(immutable character sequences), so that every string operation of the
source is a structurally recursive, kernel-computable function. -/
structure LKMItem where
  disabled : Bool
  getLabel : Option (List Char)
  deriving Repr, DecidableEq

/-- The four `ListKeyManagerModifierKey` names. -/
inductive ModifierKey where
  | altKey
  | ctrlKey
  | metaKey
  | shiftKey
  deriving Repr, DecidableEq

/-- Horizontal orientation values (`'ltr' | 'rtl'`, `none` = null). -/
inductive Horizontal where
  | ltr
  | rtl
  deriving Repr, DecidableEq

/-- The fields of a DOM `KeyboardEvent` read by `onKeydown`.  `key` is
`none` when `event.key` is undefined. -/
structure KeyEvent where
  keyCode : Nat
  key : Option (List Char)
  altKey : Bool
  ctrlKey : Bool
  metaKey : Bool
  shiftKey : Bool
  deriving Repr, DecidableEq

/-- State of a `ListKeyManager` (plain-array items). -/
structure ListKeyManager where
  _items : List LKMItem
  _activeItemIndex : Int
  _activeItem : Option LKMItem
  _wrap : Bool
  _vertical : Bool
  _horizontal : Option Horizontal
  _allowedModifierKeys : List ModifierKey
  _homeAndEnd : Bool
  _pressedLetters : List (List Char)
  deriving Repr, DecidableEq

/-- The default `_skipPredicateFn`: skip disabled items. -/
def _skipPredicateFn (item : LKMItem) : Bool := item.disabled

/-- JS `items[index]` for a possibly negative index: `undefined` (`none`)
out of bounds. -/
def itemAt (items : List LKMItem) (index : Int) : Option LKMItem :=
  if index < 0 then none else items.get? index.toNat

/-- JS `String.prototype.toUpperCase` (ASCII, as exercised here). -/
def jsToUpper (s : List Char) : List Char := s.map Char.toUpper

/-- JS `String.prototype.trim`: strip whitespace from both ends. -/
def jsTrim (s : List Char) : List Char :=
  ((s.dropWhile Char.isWhitespace).reverse.dropWhile Char.isWhitespace).reverse

/-- `updateActiveItem(index)`: set the active item to `items[index]`
(explicitly `null` when that is null/undefined) and the index to `index`,
with no other effect. -/
def ListKeyManager.updateActiveItem (m : ListKeyManager) (index : Int) :
    ListKeyManager :=
  let itemArray := m._items
  let activeItem := itemAt itemArray index
  { m with _activeItem := activeItem, _activeItemIndex := index }

/-- `setActiveItem(index)`: `updateActiveItem` plus an emission on the
`change` stream when the item changed; the emission has no further effect on
the manager state, so the state transition coincides with
`updateActiveItem`. -/
def ListKeyManager.setActiveItem (m : ListKeyManager) (index : Int) :
    ListKeyManager :=
  m.updateActiveItem index

/-- The `while (skip(items[index])) index += fallbackDelta` search of
`_setActiveItemByIndex`, returning the index finally passed to
`setActiveItem`, or `none` when the walk ran off the list (`!items[index]`).
The loop moves monotonically by ±1 so at most `items.length` steps stay in
bounds; the fuel-exhausted branch is unreachable for the deltas the source
uses. -/
def seekIndex (items : List LKMItem) (fallbackDelta : Int) :
    Int → Nat → Option Int
  | index, 0 =>
    match itemAt items index with
    | none => none
    | some item => if _skipPredicateFn item then none else some index
  | index, fuel + 1 =>
    match itemAt items index with
    | none => none
    | some item =>
      if _skipPredicateFn item then
        seekIndex items fallbackDelta (index + fallbackDelta) fuel
      else some index

/-- `_setActiveItemByIndex(index, fallbackDelta)`. -/
def ListKeyManager._setActiveItemByIndex (m : ListKeyManager) (index : Int)
    (fallbackDelta : Int) : ListKeyManager :=
  match seekIndex m._items fallbackDelta index m._items.length with
  | none => m
  | some idx => m.setActiveItem idx

/-- `setFirstItemActive()`. -/
def ListKeyManager.setFirstItemActive (m : ListKeyManager) : ListKeyManager :=
  m._setActiveItemByIndex 0 1

/-- `setLastItemActive()`. -/
def ListKeyManager.setLastItemActive (m : ListKeyManager) : ListKeyManager :=
  m._setActiveItemByIndex ((m._items.length : Int) - 1) (-1)

/-- The `for (let i = 1; i <= items.length; i++)` scan of
`_setActiveInWrapMode`; `i` counts up, `fuel` counts the remaining
iterations.  JS `%` on the non-negative dividends reached here is `Int.tmod`.
The `none` item branch mirrors the fact that in the source the loop indices
stay in bounds (the JS would fault otherwise); it is unreachable from the
manager's operations. -/
def wrapSeek (items : List LKMItem) (activeIndex : Int) (delta : Int) :
    Nat → Nat → Option Int
  | _, 0 => none
  | i, fuel + 1 =>
    let index := (activeIndex + delta * (i : Int) + (items.length : Int)).tmod
      (items.length : Int)
    match itemAt items index with
    | some item =>
      if _skipPredicateFn item then wrapSeek items activeIndex delta (i + 1) fuel
      else some index
    | none => wrapSeek items activeIndex delta (i + 1) fuel

/-- `_setActiveInWrapMode(delta)`. -/
def ListKeyManager._setActiveInWrapMode (m : ListKeyManager) (delta : Int) :
    ListKeyManager :=
  match wrapSeek m._items m._activeItemIndex delta 1 m._items.length with
  | some index => m.setActiveItem index
  | none => m

/-- `_setActiveInDefaultMode(delta)`. -/
def ListKeyManager._setActiveInDefaultMode (m : ListKeyManager) (delta : Int) :
    ListKeyManager :=
  m._setActiveItemByIndex (m._activeItemIndex + delta) delta

/-- `_setActiveItemByDelta(delta)`. -/
def ListKeyManager._setActiveItemByDelta (m : ListKeyManager) (delta : Int) :
    ListKeyManager :=
  if m._wrap then m._setActiveInWrapMode delta else m._setActiveInDefaultMode delta

/-- `setNextItemActive()`. -/
def ListKeyManager.setNextItemActive (m : ListKeyManager) : ListKeyManager :=
  if m._activeItemIndex < 0 then m.setFirstItemActive else m._setActiveItemByDelta 1

/-- `setPreviousItemActive()`. -/
def ListKeyManager.setPreviousItemActive (m : ListKeyManager) : ListKeyManager :=
  if m._activeItemIndex < 0 ∧ m._wrap = true then m.setLastItemActive
  else m._setActiveItemByDelta (-1)

/-- The value of `event[modifier]` for a modifier name. -/
def KeyEvent.modifier (e : KeyEvent) : ModifierKey → Bool
  | .altKey => e.altKey
  | .ctrlKey => e.ctrlKey
  | .metaKey => e.metaKey
  | .shiftKey => e.shiftKey

/-- `modifiers.every(m => !event[m] || allowed.indexOf(m) > -1)` from
`onKeydown`. -/
def isModifierAllowed (m : ListKeyManager) (e : KeyEvent) : Bool :=
  [ModifierKey.altKey, ModifierKey.ctrlKey, ModifierKey.metaKey,
    ModifierKey.shiftKey].all fun k =>
      !(e.modifier k) || m._allowedModifierKeys.contains k

/-- Observable output of one `onKeydown` call: the successor state, whether
`event.preventDefault()` ran, whether `tabOut` emitted, and the letter pushed
into `_letterKeyStream` (if any). -/
structure KeydownResult where
  state : ListKeyManager
  defaultPrevented : Bool
  tabOutEmitted : Bool
  letterEmitted : Option (List Char)
  deriving Repr, DecidableEq

/-- A handled navigation key: clear `_pressedLetters`, then
`event.preventDefault()`. -/
def navConsume (s : ListKeyManager) : KeydownResult :=
  { state := { s with _pressedLetters := [] }
    defaultPrevented := true
    tabOutEmitted := false
    letterEmitted := none }

/-- A key `onKeydown` returns on without consuming. -/
def unconsumed (m : ListKeyManager) : KeydownResult :=
  { state := m, defaultPrevented := false, tabOutEmitted := false,
    letterEmitted := none }

/-- `onKeydown(event)`. -/
def ListKeyManager.onKeydown (m : ListKeyManager) (event : KeyEvent) :
    KeydownResult :=
  let allowed := isModifierAllowed m event
  if event.keyCode = TAB then
    { state := m, defaultPrevented := false, tabOutEmitted := true,
      letterEmitted := none }
  else if event.keyCode = DOWN_ARROW then
    if m._vertical && allowed then navConsume m.setNextItemActive else unconsumed m
  else if event.keyCode = UP_ARROW then
    if m._vertical && allowed then navConsume m.setPreviousItemActive else unconsumed m
  else if event.keyCode = RIGHT_ARROW then
    if m._horizontal.isSome && allowed then
      navConsume (if m._horizontal = some Horizontal.rtl then m.setPreviousItemActive
        else m.setNextItemActive)
    else unconsumed m
  else if event.keyCode = LEFT_ARROW then
    if m._horizontal.isSome && allowed then
      navConsume (if m._horizontal = some Horizontal.rtl then m.setNextItemActive
        else m.setPreviousItemActive)
    else unconsumed m
  else if event.keyCode = HOME then
    if m._homeAndEnd && allowed then navConsume m.setFirstItemActive else unconsumed m
  else if event.keyCode = END then
    if m._homeAndEnd && allowed then navConsume m.setLastItemActive else unconsumed m
  else
    -- default case: feed the typeahead letter stream, return without
    -- preventing the default action
    let letter : Option (List Char) :=
      if allowed || event.shiftKey then
        if (match event.key with
            | some k => k.length == 1
            | none => false) then
          event.key.map jsToUpper
        else if (A ≤ event.keyCode ∧ event.keyCode ≤ Z) ∨
            (ZERO ≤ event.keyCode ∧ event.keyCode ≤ NINE) then
          some [Char.ofNat event.keyCode]
        else none
      else none
    { state := m, defaultPrevented := false, tabOutEmitted := false,
      letterEmitted := letter }

/-- The Angular `ngDevMode` ambient global: `none` models `undefined` (the
standalone-library case, in which `typeof ngDevMode === 'undefined'` makes
the dev-mode guard pass). -/
def ngDevMode : Option Bool := none

/-- `withTypeAhead(debounceInterval)`'s synchronous item validation: throws
when the collection is non-empty and some item does not implement
`getLabel`.  The throw happens before `_typeaheadSubscription` is replaced,
so on the error path nothing is configured. -/
def withTypeAheadCheck (items : List LKMItem) : Except String Unit :=
  if (match ngDevMode with
      | none => true
      | some b => b) &&
      (items.length != 0 && items.any fun item => item.getLabel.isNone) then
    Except.error
      "ListKeyManager items in typeahead mode must implement the getLabel method."
  else
    Except.ok ()

/-- The match test of the typeahead subscriber:
`!skip(item) && item.getLabel!().toUpperCase().trim().indexOf(inputString) === 0`.
An item without `getLabel` would make the JS fault; `withTypeAhead` rules
that out, and the embedding returns `false` there. -/
def typeaheadMatch (item : LKMItem) (inputString : List Char) : Bool :=
  match item.getLabel with
  | some label => inputString.isPrefixOf (jsTrim (jsToUpper label))
  | none => false

/-- Combined per-index test of the typeahead loop body. -/
def typeaheadTest (items : List LKMItem) (inputString : List Char) (idx : Nat) : Bool :=
  match items.get? idx with
  | some item => !_skipPredicateFn item && typeaheadMatch item inputString
  | none => false

/-- The scan position of loop iteration `i` of the typeahead subscriber:
`(this._activeItemIndex + i) % items.length` (JS `%` is `Int.tmod`). -/
def scanIdx (items : List LKMItem) (activeIndex : Int) (i : Nat) : Nat :=
  ((activeIndex + (i : Int)).tmod (items.length : Int)).toNat

/-- The `for (let i = 1; i < items.length + 1; i++)` loop of the typeahead
subscriber: find the first scan position whose item passes the test.  `i` is
the loop counter, `fuel` the remaining iterations (`items.length` at the
start, so the loop runs for `i = 1 … items.length`).  The `none` item branch
is unreachable when the list is non-empty because the scan position is
always in bounds. -/
def typeaheadFrom (items : List LKMItem) (activeIndex : Int)
    (inputString : List Char) : Nat → Nat → Option Nat
  | _, 0 => none
  | i, fuel + 1 =>
    let index := scanIdx items activeIndex i
    match items.get? index with
    | some item =>
      if !_skipPredicateFn item && typeaheadMatch item inputString then some index
      else typeaheadFrom items activeIndex inputString (i + 1) fuel
    | none => none

/-- The index the typeahead subscriber passes to `setActiveItem`, if any. -/
def typeaheadSearch (items : List LKMItem) (activeIndex : Int)
    (inputString : List Char) : Option Nat :=
  typeaheadFrom items activeIndex inputString 1 items.length

/-- The debounced typeahead subscriber firing: if letters are buffered
(`filter(() => this._pressedLetters.length > 0)`), join them, search from
`activeItemIndex + 1` cyclically, activate the first match, and clear the
buffer. -/
def ListKeyManager.typeaheadFire (m : ListKeyManager) : ListKeyManager :=
  if m._pressedLetters.length > 0 then
    let inputString := m._pressedLetters.flatten
    let m1 :=
      match typeaheadSearch m._items m._activeItemIndex inputString with
      | some index => m.setActiveItem (index : Int)
      | none => m
    { m1 with _pressedLetters := [] }
  else m

/-- The spec invariant on the active item: `null`, or a non-skipped member
of the current collection. -/
def ActiveItemValid (m : ListKeyManager) : Prop :=
  match m._activeItem with
  | none => True
  | some item => item ∈ m._items ∧ _skipPredicateFn item = false

/-! ### C9: synchronous typeahead validation -/

/-- C9: `withTypeAhead` throws synchronously when some item of a non-empty
collection lacks `getLabel`, and does not throw when all items implement
it. -/
theorem withTypeAhead_label_validation (items : List LKMItem) :
    ((∃ item ∈ items, item.getLabel = none) →
      withTypeAheadCheck items = Except.error
        "ListKeyManager items in typeahead mode must implement the getLabel method.") ∧
    ((∀ item ∈ items, (item.getLabel).isSome = true) →
      withTypeAheadCheck items = Except.ok ()) := by
  constructor
  · rintro ⟨item, hmem, hnone⟩
    have hne : (items.length != 0) = true := by
      cases items with
      | nil => simp at hmem
      | cons a l => simp
    have hany : items.any (fun item => item.getLabel.isNone) = true := by
      rw [List.any_eq_true]
      exact ⟨item, hmem, by simp [hnone]⟩
    simp [withTypeAheadCheck, ngDevMode, hne, hany]
  · intro hall
    have hany : items.any (fun item => item.getLabel.isNone) = false := by
      rw [Bool.eq_false_iff]
      intro hco
      obtain ⟨item, hmem, hisnone⟩ := List.any_eq_true.mp hco
      have := hall item hmem
      rw [Option.isNone_iff_eq_none] at hisnone
      rw [hisnone] at this
      simp at this
    simp [withTypeAheadCheck, ngDevMode, hany]

/-- C9 witness: a labelless item triggers the error; an all-labelled
collection does not. -/
theorem withTypeAhead_label_validation_witness :
    (∃ item ∈ [LKMItem.mk false none], item.getLabel = none) ∧
    withTypeAheadCheck [LKMItem.mk false none] = Except.error
      "ListKeyManager items in typeahead mode must implement the getLabel method." ∧
    (∀ item ∈ [LKMItem.mk false (some "A".data)], (item.getLabel).isSome = true) ∧
    withTypeAheadCheck [LKMItem.mk false (some "A".data)] = Except.ok () :=
  ⟨⟨LKMItem.mk false none, by simp, rfl⟩,
   (withTypeAhead_label_validation [LKMItem.mk false none]).1
     ⟨LKMItem.mk false none, by simp, rfl⟩,
   by decide,
   (withTypeAhead_label_validation [LKMItem.mk false (some "A".data)]).2 (by decide)⟩

/-! ### C10: totality and no-ops on an empty collection -/

theorem itemAt_nil (i : Int) : itemAt [] i = none := by
  unfold itemAt
  split
  · rfl
  · exact rfl

theorem seekIndex_nil (d i : Int) (fuel : Nat) : seekIndex [] d i fuel = none := by
  cases fuel <;> simp [seekIndex, itemAt_nil]

/-- Case analysis on `onKeydown`: the successor state is the old state, or a
navigation operation followed by the `_pressedLetters = []` reset. -/
theorem onKeydown_state_cases (m : ListKeyManager) (e : KeyEvent) :
    (m.onKeydown e).state = m ∨
    (m.onKeydown e).state = { m.setNextItemActive with _pressedLetters := [] } ∨
    (m.onKeydown e).state = { m.setPreviousItemActive with _pressedLetters := [] } ∨
    (m.onKeydown e).state = { m.setFirstItemActive with _pressedLetters := [] } ∨
    (m.onKeydown e).state = { m.setLastItemActive with _pressedLetters := [] } := by
  simp only [ListKeyManager.onKeydown]
  split_ifs <;> simp [navConsume, unconsumed]

/-- C10: with an empty item collection (and the construction-time state:
no active item, empty typeahead buffer), every navigation operation is a
no-op in both wrap and non-wrap mode, and `onKeydown` on an arrow, Home or
End key leaves the state unchanged with `activeItemIndex = -1` and
`activeItem = null`.  (Totality — "never throws" — is witnessed by the
operations being plain total functions along the source's code paths.) -/
theorem listKeyManager_empty_collection_noop (m : ListKeyManager) (e : KeyEvent)
    (hitems : m._items = []) (hidx : m._activeItemIndex = -1)
    (hact : m._activeItem = none) (hpl : m._pressedLetters = []) :
    m.setFirstItemActive = m ∧
    m.setLastItemActive = m ∧
    m.setNextItemActive = m ∧
    m.setPreviousItemActive = m ∧
    ((e.keyCode = DOWN_ARROW ∨ e.keyCode = UP_ARROW ∨ e.keyCode = LEFT_ARROW ∨
      e.keyCode = RIGHT_ARROW ∨ e.keyCode = HOME ∨ e.keyCode = END) →
      (m.onKeydown e).state = m ∧
      (m.onKeydown e).state._activeItemIndex = -1 ∧
      (m.onKeydown e).state._activeItem = none) := by
  have hby : ∀ (i d : Int), m._setActiveItemByIndex i d = m := by
    intro i d
    unfold ListKeyManager._setActiveItemByIndex
    rw [hitems, seekIndex_nil]
  have hwrapm : ∀ d : Int, m._setActiveInWrapMode d = m := by
    intro d
    unfold ListKeyManager._setActiveInWrapMode
    rw [hitems]
    rfl
  have hfirst : m.setFirstItemActive = m := hby 0 1
  have hlast : m.setLastItemActive = m := hby _ _
  have hnext : m.setNextItemActive = m := by
    unfold ListKeyManager.setNextItemActive
    rw [hidx]
    rw [if_pos (by decide)]
    exact hfirst
  have hprev : m.setPreviousItemActive = m := by
    unfold ListKeyManager.setPreviousItemActive
    by_cases hw : m._activeItemIndex < 0 ∧ m._wrap = true
    · rw [if_pos hw]
      exact hlast
    · rw [if_neg hw]
      unfold ListKeyManager._setActiveItemByDelta
      by_cases hwr : m._wrap = true
      · rw [if_pos hwr]
        exact hwrapm _
      · rw [if_neg hwr]
        unfold ListKeyManager._setActiveInDefaultMode
        exact hby _ _
  have hclear : ∀ s : ListKeyManager, s = m → { s with _pressedLetters := [] } = m := by
    intro s hs
    subst hs
    rw [← hpl]
  refine ⟨hfirst, hlast, hnext, hprev, ?_⟩
  intro _
  have hstate : (m.onKeydown e).state = m := by
    rcases onKeydown_state_cases m e with hc | hc | hc | hc | hc <;> rw [hc]
    · exact hclear _ hnext
    · exact hclear _ hprev
    · exact hclear _ hfirst
    · exact hclear _ hlast
  refine ⟨hstate, ?_, ?_⟩
  · rw [hstate, hidx]
  · rw [hstate, hact]

/-- C10 witness: the fresh empty-collection manager in wrap mode with a Home
keypress. -/
theorem listKeyManager_empty_collection_noop_witness :
    (ListKeyManager.mk [] (-1) none true true none [] true [])._items = [] ∧
    ((ListKeyManager.mk [] (-1) none true true none [] true []).onKeydown
        (KeyEvent.mk HOME none false false false false)).state
      = ListKeyManager.mk [] (-1) none true true none [] true [] ∧
    ((ListKeyManager.mk [] (-1) none true true none [] true []).onKeydown
        (KeyEvent.mk HOME none false false false false)).state._activeItemIndex = -1 ∧
    ((ListKeyManager.mk [] (-1) none true true none [] true []).onKeydown
        (KeyEvent.mk HOME none false false false false)).state._activeItem = none :=
  ⟨rfl,
   (listKeyManager_empty_collection_noop
      (ListKeyManager.mk [] (-1) none true true none [] true [])
      (KeyEvent.mk HOME none false false false false)
      rfl rfl rfl rfl).2.2.2.2 (by decide)⟩

/-! ### C7: the active-item invariant -/

theorem itemAt_mem {items : List LKMItem} {i : Int} {item : LKMItem}
    (h : itemAt items i = some item) : item ∈ items := by
  unfold itemAt at h
  split at h
  · exact absurd h (by simp)
  · exact List.get?_mem h

/-- If the `while` walk of `_setActiveItemByIndex` lands on an index, that
index holds a non-skipped item. -/
theorem seekIndex_some {items : List LKMItem} {fd : Int} :
    ∀ {fuel : Nat} {index idx : Int}, seekIndex items fd index fuel = some idx →
      ∃ item, itemAt items idx = some item ∧ _skipPredicateFn item = false := by
  intro fuel
  induction fuel with
  | zero =>
    intro index idx h
    rw [seekIndex] at h
    split at h
    · exact absurd h (by simp)
    · rename_i item hitem
      split at h
      · exact absurd h (by simp)
      · rename_i hskip
        refine ⟨item, ?_, by simpa using hskip⟩
        rw [← Option.some.inj h]
        exact hitem
  | succ fuel ih =>
    intro index idx h
    rw [seekIndex] at h
    split at h
    · exact absurd h (by simp)
    · rename_i item hitem
      split at h
      · exact ih h
      · rename_i hskip
        refine ⟨item, ?_, by simpa using hskip⟩
        rw [← Option.some.inj h]
        exact hitem

/-- If the wrap-mode scan lands on an index, that index holds a non-skipped
item. -/
theorem wrapSeek_some {items : List LKMItem} {active delta : Int} :
    ∀ {fuel i : Nat} {idx : Int}, wrapSeek items active delta i fuel = some idx →
      ∃ item, itemAt items idx = some item ∧ _skipPredicateFn item = false := by
  intro fuel
  induction fuel with
  | zero =>
    intro i idx h
    rw [wrapSeek] at h
    exact absurd h (by simp)
  | succ fuel ih =>
    intro i idx h
    rw [wrapSeek] at h
    split at h
    · rename_i item hitem
      split at h
      · exact ih h
      · rename_i hskip
        refine ⟨item, ?_, by simpa using hskip⟩
        rw [← Option.some.inj h]
        exact hitem
    · exact ih h

theorem setActiveItem_valid {m : ListKeyManager} {idx : Int} {item : LKMItem}
    (h : itemAt m._items idx = some item) (hskip : _skipPredicateFn item = false) :
    ActiveItemValid (m.setActiveItem idx) := by
  unfold ListKeyManager.setActiveItem ListKeyManager.updateActiveItem ActiveItemValid
  simp only [h]
  exact ⟨itemAt_mem h, hskip⟩

theorem byIndex_valid {m : ListKeyManager} (h : ActiveItemValid m) (i d : Int) :
    ActiveItemValid (m._setActiveItemByIndex i d) := by
  unfold ListKeyManager._setActiveItemByIndex
  rcases hs : seekIndex m._items d i m._items.length with _ | idx
  · exact h
  · obtain ⟨item, hitem, hskip⟩ := seekIndex_some hs
    exact setActiveItem_valid hitem hskip

theorem wrapMode_valid {m : ListKeyManager} (h : ActiveItemValid m) (d : Int) :
    ActiveItemValid (m._setActiveInWrapMode d) := by
  unfold ListKeyManager._setActiveInWrapMode
  rcases hs : wrapSeek m._items m._activeItemIndex d 1 m._items.length with _ | idx
  · exact h
  · obtain ⟨item, hitem, hskip⟩ := wrapSeek_some hs
    exact setActiveItem_valid hitem hskip

theorem nav_valid {m : ListKeyManager} (h : ActiveItemValid m) :
    ActiveItemValid m.setFirstItemActive ∧
    ActiveItemValid m.setLastItemActive ∧
    ActiveItemValid m.setNextItemActive ∧
    ActiveItemValid m.setPreviousItemActive := by
  have hfirst : ActiveItemValid m.setFirstItemActive := byIndex_valid h 0 1
  have hlast : ActiveItemValid m.setLastItemActive := byIndex_valid h _ _
  have hdelta : ∀ d : Int, ActiveItemValid (m._setActiveItemByDelta d) := by
    intro d
    unfold ListKeyManager._setActiveItemByDelta
    split
    · exact wrapMode_valid h d
    · exact byIndex_valid h _ _
  refine ⟨hfirst, hlast, ?_, ?_⟩
  · unfold ListKeyManager.setNextItemActive
    split
    · exact hfirst
    · exact hdelta 1
  · unfold ListKeyManager.setPreviousItemActive
    split
    · exact hlast
    · exact hdelta (-1)

/-- Clearing the typeahead buffer does not affect the active-item fields. -/
theorem clearLetters_valid {m : ListKeyManager} (h : ActiveItemValid m) :
    ActiveItemValid { m with _pressedLetters := [] } := h

/-- If the typeahead loop finds an index, that index holds a non-skipped
matching item. -/
theorem typeaheadFrom_some {items : List LKMItem} {active : Int} {input : List Char} :
    ∀ {fuel i : Nat} {idx : Nat},
      typeaheadFrom items active input i fuel = some idx →
      ∃ item, items.get? idx = some item ∧ _skipPredicateFn item = false ∧
        typeaheadMatch item input = true := by
  intro fuel
  induction fuel with
  | zero =>
    intro i idx h
    rw [typeaheadFrom] at h
    exact absurd h (by simp)
  | succ fuel ih =>
    intro i idx h
    rw [typeaheadFrom] at h
    split at h
    · rename_i item hitem
      split at h
      · rename_i htest
        rw [Bool.and_eq_true, Bool.not_eq_true'] at htest
        refine ⟨item, ?_, htest.1, htest.2⟩
        rw [← Option.some.inj h]
        exact hitem
      · exact ih h
    · exact absurd h (by simp)

theorem typeaheadFire_valid {m : ListKeyManager} (h : ActiveItemValid m) :
    ActiveItemValid m.typeaheadFire := by
  unfold ListKeyManager.typeaheadFire
  split
  · rcases hs : typeaheadSearch m._items m._activeItemIndex
        m._pressedLetters.flatten with _ | idx <;> simp only [hs]
    · exact clearLetters_valid h
    · obtain ⟨item, hitem, hskip, _⟩ := typeaheadFrom_some hs
      have hat : itemAt m._items (idx : Int) = some item := by
        unfold itemAt
        rw [if_neg (by omega)]
        simpa using hitem
      exact clearLetters_valid (setActiveItem_valid hat hskip)
  · exact h

/-- C7 counterexample: `updateActiveItem` (and hence the public
`setActiveItem`) performs no skip check, so pointing it at a disabled item
makes the active item a skipped member, violating the claimed invariant. -/
theorem listKeyManager_activeItemValid_counterexample :
    ((ListKeyManager.mk [LKMItem.mk true (some "A".data)] (-1) none false true none
        [] false []).updateActiveItem 0)._activeItem = some (LKMItem.mk true (some "A".data)) ∧
    _skipPredicateFn (LKMItem.mk true (some "A".data)) = true ∧
    ¬ ActiveItemValid ((ListKeyManager.mk [LKMItem.mk true (some "A".data)] (-1) none
        false true none [] false []).updateActiveItem 0) := by
  refine ⟨rfl, rfl, ?_⟩
  intro h
  exact absurd h.2 (by decide)

/-- C7 (amended): the active item stays `null` or a non-skipped member of
the collection across `onKeydown`, the four navigation operations and the
typeahead activation; `updateActiveItem` preserves it exactly when the
resolved item is absent or non-skipped. -/
theorem listKeyManager_activeItemValid_preserved (m : ListKeyManager)
    (h : ActiveItemValid m) :
    ActiveItemValid m.setFirstItemActive ∧
    ActiveItemValid m.setLastItemActive ∧
    ActiveItemValid m.setNextItemActive ∧
    ActiveItemValid m.setPreviousItemActive ∧
    (∀ e : KeyEvent, ActiveItemValid (m.onKeydown e).state) ∧
    ActiveItemValid m.typeaheadFire ∧
    (∀ i : Int, itemAt m._items i = none → ActiveItemValid (m.updateActiveItem i)) ∧
    (∀ (i : Int) (item : LKMItem), itemAt m._items i = some item →
      _skipPredicateFn item = false → ActiveItemValid (m.updateActiveItem i)) := by
  obtain ⟨h1, h2, h3, h4⟩ := nav_valid h
  refine ⟨h1, h2, h3, h4, ?_, typeaheadFire_valid h, ?_, ?_⟩
  · intro e
    rcases onKeydown_state_cases m e with hc | hc | hc | hc | hc <;> rw [hc]
    · exact h
    · exact clearLetters_valid h3
    · exact clearLetters_valid h4
    · exact clearLetters_valid h1
    · exact clearLetters_valid h2
  · intro i hnone
    unfold ListKeyManager.updateActiveItem ActiveItemValid
    simp only [hnone]
  · intro i item hsome hskip
    unfold ListKeyManager.updateActiveItem ActiveItemValid
    simp only [hsome]
    exact ⟨itemAt_mem hsome, hskip⟩

/-- C7 witness: a two-item list with the second item disabled; navigation
from the valid initial state keeps the invariant. -/
theorem listKeyManager_activeItemValid_preserved_witness :
    ActiveItemValid (ListKeyManager.mk
      [LKMItem.mk false (some "A".data), LKMItem.mk true (some "B".data)] (-1) none false
      true none [] true []) ∧
    ActiveItemValid (ListKeyManager.mk
      [LKMItem.mk false (some "A".data), LKMItem.mk true (some "B".data)] (-1) none false
      true none [] true []).setFirstItemActive :=
  ⟨trivial,
   (listKeyManager_activeItemValid_preserved
      (ListKeyManager.mk [LKMItem.mk false (some "A".data), LKMItem.mk true (some "B".data)]
        (-1) none false true none [] true []) trivial).1⟩

/-! ### C6: key consumption in `onKeydown` -/

/-- C6 counterexample: the `case TAB` arm emits on `tabOut` and returns
before the `event.preventDefault()` call at the end of `onKeydown`, so a
handled Tab keypress does not result in `preventDefault()`. -/
theorem onKeydown_tab_counterexample :
    ((ListKeyManager.mk [LKMItem.mk false (some "A".data)] (-1) none false true none
        [] false []).onKeydown
      (KeyEvent.mk TAB (some "Tab".data) false false false false)).defaultPrevented
        = false ∧
    ((ListKeyManager.mk [LKMItem.mk false (some "A".data)] (-1) none false true none
        [] false []).onKeydown
      (KeyEvent.mk TAB (some "Tab".data) false false false false)).tabOutEmitted = true ∧
    ((ListKeyManager.mk [LKMItem.mk false (some "A".data)] (-1) none false true none
        [] false []).onKeydown
      (KeyEvent.mk TAB (some "Tab".data) false false false false)).state
      = ListKeyManager.mk [LKMItem.mk false (some "A".data)] (-1) none false true none
          [] false [] := by
  refine ⟨rfl, rfl, rfl⟩

/-- C6 (amended): `preventDefault()` runs exactly for the handled navigation
keys (arrows under the configured orientation, Home/End when enabled, with
all held modifiers allowed); Tab emits on `tabOut`, changes nothing and does
not prevent the default; `tabOut` emits only for Tab. -/
theorem onKeydown_consumption_characterization (m : ListKeyManager) (e : KeyEvent) :
    ((m.onKeydown e).defaultPrevented = true ↔
      ((e.keyCode = DOWN_ARROW ∧ m._vertical = true ∧ isModifierAllowed m e = true) ∨
       (e.keyCode = UP_ARROW ∧ m._vertical = true ∧ isModifierAllowed m e = true) ∨
       (e.keyCode = RIGHT_ARROW ∧ m._horizontal.isSome = true ∧
         isModifierAllowed m e = true) ∨
       (e.keyCode = LEFT_ARROW ∧ m._horizontal.isSome = true ∧
         isModifierAllowed m e = true) ∨
       (e.keyCode = HOME ∧ m._homeAndEnd = true ∧ isModifierAllowed m e = true) ∨
       (e.keyCode = END ∧ m._homeAndEnd = true ∧ isModifierAllowed m e = true))) ∧
    ((m.onKeydown e).tabOutEmitted = true ↔ e.keyCode = TAB) ∧
    (e.keyCode = TAB →
      (m.onKeydown e).defaultPrevented = false ∧ (m.onKeydown e).state = m) := by
  simp only [ListKeyManager.onKeydown]
  split_ifs <;>
    simp_all [navConsume, unconsumed, TAB, END, HOME, LEFT_ARROW, UP_ARROW,
      RIGHT_ARROW, DOWN_ARROW]

/-- C6 witness: a vertical-orientation manager; Down-arrow is consumed, Tab
is not. -/
theorem onKeydown_consumption_characterization_witness :
    (((ListKeyManager.mk [LKMItem.mk false (some "A".data)] (-1) none false true none
        [] false []).onKeydown
      (KeyEvent.mk DOWN_ARROW (some "ArrowDown".data) false false false
        false)).defaultPrevented = true ↔
      (((KeyEvent.mk DOWN_ARROW (some "ArrowDown".data) false false false
          false).keyCode = DOWN_ARROW ∧
        (ListKeyManager.mk [LKMItem.mk false (some "A".data)] (-1) none false true none
          [] false [])._vertical = true ∧
        isModifierAllowed
          (ListKeyManager.mk [LKMItem.mk false (some "A".data)] (-1) none false true none
            [] false [])
          (KeyEvent.mk DOWN_ARROW (some "ArrowDown".data) false false false false)
          = true) ∨
       ((KeyEvent.mk DOWN_ARROW (some "ArrowDown".data) false false false
          false).keyCode = UP_ARROW ∧
        (ListKeyManager.mk [LKMItem.mk false (some "A".data)] (-1) none false true none
          [] false [])._vertical = true ∧
        isModifierAllowed
          (ListKeyManager.mk [LKMItem.mk false (some "A".data)] (-1) none false true none
            [] false [])
          (KeyEvent.mk DOWN_ARROW (some "ArrowDown".data) false false false false)
          = true) ∨
       ((KeyEvent.mk DOWN_ARROW (some "ArrowDown".data) false false false
          false).keyCode = RIGHT_ARROW ∧
        (ListKeyManager.mk [LKMItem.mk false (some "A".data)] (-1) none false true none
          [] false [])._horizontal.isSome = true ∧
        isModifierAllowed
          (ListKeyManager.mk [LKMItem.mk false (some "A".data)] (-1) none false true none
            [] false [])
          (KeyEvent.mk DOWN_ARROW (some "ArrowDown".data) false false false false)
          = true) ∨
       ((KeyEvent.mk DOWN_ARROW (some "ArrowDown".data) false false false
          false).keyCode = LEFT_ARROW ∧
        (ListKeyManager.mk [LKMItem.mk false (some "A".data)] (-1) none false true none
          [] false [])._horizontal.isSome = true ∧
        isModifierAllowed
          (ListKeyManager.mk [LKMItem.mk false (some "A".data)] (-1) none false true none
            [] false [])
          (KeyEvent.mk DOWN_ARROW (some "ArrowDown".data) false false false false)
          = true) ∨
       ((KeyEvent.mk DOWN_ARROW (some "ArrowDown".data) false false false
          false).keyCode = HOME ∧
        (ListKeyManager.mk [LKMItem.mk false (some "A".data)] (-1) none false true none
          [] false [])._homeAndEnd = true ∧
        isModifierAllowed
          (ListKeyManager.mk [LKMItem.mk false (some "A".data)] (-1) none false true none
            [] false [])
          (KeyEvent.mk DOWN_ARROW (some "ArrowDown".data) false false false false)
          = true) ∨
       ((KeyEvent.mk DOWN_ARROW (some "ArrowDown".data) false false false
          false).keyCode = END ∧
        (ListKeyManager.mk [LKMItem.mk false (some "A".data)] (-1) none false true none
          [] false [])._homeAndEnd = true ∧
        isModifierAllowed
          (ListKeyManager.mk [LKMItem.mk false (some "A".data)] (-1) none false true none
            [] false [])
          (KeyEvent.mk DOWN_ARROW (some "ArrowDown".data) false false false false)
          = true))) ∧
    ((ListKeyManager.mk [LKMItem.mk false (some "A".data)] (-1) none false true none
        [] false []).onKeydown
      (KeyEvent.mk DOWN_ARROW (some "ArrowDown".data) false false false
        false)).defaultPrevented = true :=
  ⟨(onKeydown_consumption_characterization
      (ListKeyManager.mk [LKMItem.mk false (some "A".data)] (-1) none false true none
        [] false [])
      (KeyEvent.mk DOWN_ARROW (some "ArrowDown".data) false false false false)).1,
   by decide⟩

/-! ### C5: the typeahead search activates the first cyclic match -/

theorem scanIdx_lt {items : List LKMItem} (h : items ≠ []) (active : Int) (o : Nat) :
    scanIdx items active o < items.length := by
  unfold scanIdx
  have hlen : (0:Int) < (items.length : Int) := by
    have := List.length_pos.mpr h
    exact_mod_cast this
  have h1 := Int.tmod_lt_of_pos (active + (o : Int)) hlen
  omega

theorem get?_scanIdx {items : List LKMItem} (h : items ≠ []) (active : Int) (o : Nat) :
    ∃ item, items.get? (scanIdx items active o) = some item := by
  have hlt := scanIdx_lt h active o
  rcases hg : items.get? (scanIdx items active o) with _ | item
  · rw [List.get?_eq_none] at hg
    omega
  · exact ⟨item, rfl⟩

/-- One unrolling of the typeahead loop on a non-empty list. -/
theorem typeahead_step {items : List LKMItem} (h : items ≠ []) (active : Int)
    (input : List Char) (i fuel : Nat) :
    typeaheadFrom items active input i (fuel + 1) =
      if typeaheadTest items input (scanIdx items active i) = true then
        some (scanIdx items active i)
      else typeaheadFrom items active input (i + 1) fuel := by
  obtain ⟨item, hitem⟩ := get?_scanIdx h active i
  rw [typeaheadFrom]
  simp only [typeaheadTest, hitem]

/-- The typeahead loop returns the scan position of the first passing test
when one exists within the remaining fuel. -/
theorem typeaheadFrom_first {items : List LKMItem} (h : items ≠ []) (active : Int)
    (input : List Char) :
    ∀ (fuel i : Nat),
      (∃ k, k < fuel ∧ typeaheadTest items input (scanIdx items active (i + k)) = true) →
      ∃ k, k < fuel ∧
        typeaheadTest items input (scanIdx items active (i + k)) = true ∧
        (∀ k' < k, typeaheadTest items input (scanIdx items active (i + k')) = false) ∧
        typeaheadFrom items active input i fuel = some (scanIdx items active (i + k)) := by
  intro fuel
  induction fuel with
  | zero =>
    rintro i ⟨k, hk, -⟩
    omega
  | succ fuel ih =>
    rintro i ⟨k, hk, htest⟩
    by_cases h0 : typeaheadTest items input (scanIdx items active i) = true
    · refine ⟨0, by omega, ?_, ?_, ?_⟩
      · simpa using h0
      · intro k' hk'
        omega
      · rw [typeahead_step h, if_pos h0, Nat.add_zero]
    · have hkpos : k ≠ 0 := by
        rintro rfl
        rw [Nat.add_zero] at htest
        exact h0 htest
      obtain ⟨k1, rfl⟩ := Nat.exists_eq_succ_of_ne_zero hkpos
      have hex : ∃ j, j < fuel ∧
          typeaheadTest items input (scanIdx items active ((i + 1) + j)) = true :=
        ⟨k1, by omega, by rw [show (i + 1) + k1 = i + (k1 + 1) from by omega]; exact htest⟩
      obtain ⟨k0, hk0, ht0, hmin0, heq0⟩ := ih (i + 1) hex
      refine ⟨k0 + 1, by omega, ?_, ?_, ?_⟩
      · rw [show i + (k0 + 1) = (i + 1) + k0 from by omega]
        exact ht0
      · intro k' hk'
        cases k' with
        | zero =>
          rw [Nat.add_zero]
          simpa using h0
        | succ k1' =>
          rw [show i + (k1' + 1) = (i + 1) + k1' from by omega]
          exact hmin0 k1' (by omega)
      · rw [typeahead_step h, if_neg h0, heq0]
        congr 1
        rw [show i + (k0 + 1) = (i + 1) + k0 from by omega]

/-- Scanning `items.length` positions forward from `active + 1` covers every
index of the list (the dividends are consecutive, so the JS `%` values cover
every residue). -/
theorem scan_cover {items : List LKMItem} (h : items ≠ []) {active : Int}
    (hact : -1 ≤ active) {p : Nat} (hp : p < items.length) :
    ∃ k, k < items.length ∧ scanIdx items active (1 + k) = p := by
  have hlen : (0:Int) < (items.length : Int) := by
    have := List.length_pos.mpr h
    exact_mod_cast this
  have hnn : 0 ≤ ((p : Int) - (active + 1)) % (items.length : Int) :=
    Int.emod_nonneg _ (by omega)
  have hlt : ((p : Int) - (active + 1)) % (items.length : Int) < (items.length : Int) :=
    Int.emod_lt_of_pos _ hlen
  refine ⟨(((p : Int) - (active + 1)) % (items.length : Int)).toNat, by omega, ?_⟩
  set K := (((p : Int) - (active + 1)) % (items.length : Int)).toNat with hK
  have hKi : (K : Int) = ((p : Int) - (active + 1)) % (items.length : Int) := by
    rw [hK]
    exact Int.toNat_of_nonneg hnn
  unfold scanIdx
  have hdividend : active + ((1 + K : Nat) : Int) = (active + 1) + (K : Int) := by
    push_cast
    ring
  rw [hdividend, Int.tmod_eq_emod (by omega) (by omega), hKi]
  conv_lhs => rw [Int.add_emod]
  rw [Int.emod_emod_of_dvd _ dvd_rfl, ← Int.add_emod]
  rw [show (active + 1) + ((p : Int) - (active + 1)) = (p : Int) from by ring]
  rw [Int.emod_eq_of_lt (by omega) (by exact_mod_cast hp)]
  simp

/-- C5: on a list with no disabled items where some label starts
(case-insensitively, after upper-casing and trimming) with the buffered
input, the typeahead search returns the first matching position scanning
cyclically forward from `activeItemIndex + 1`, and the debounced subscriber
activates exactly that item and clears the buffer. -/
theorem listKeyManager_typeahead_first_match (items : List LKMItem) (active : Int)
    (input : List Char) (hact : -1 ≤ active)
    (hnodis : ∀ item ∈ items, item.disabled = false)
    (hmatch : ∃ item ∈ items, typeaheadMatch item input = true) :
    (∃ k, k < items.length ∧
      typeaheadSearch items active input = some (scanIdx items active (1 + k)) ∧
      typeaheadTest items input (scanIdx items active (1 + k)) = true ∧
      ∀ k' < k, typeaheadTest items input (scanIdx items active (1 + k')) = false) ∧
    (∀ (m : ListKeyManager) (idx : Nat), m._items = items →
      m._activeItemIndex = active → m._pressedLetters ≠ [] →
      m._pressedLetters.flatten = input →
      typeaheadSearch items active input = some idx →
      (m.typeaheadFire)._activeItemIndex = (idx : Int) ∧
      (m.typeaheadFire)._activeItem = items.get? idx ∧
      (m.typeaheadFire)._pressedLetters = []) := by
  obtain ⟨item0, hmem0, hmatch0⟩ := hmatch
  have hne : items ≠ [] := by
    rintro rfl
    simp at hmem0
  constructor
  · obtain ⟨p, hgp⟩ := List.mem_iff_get?.mp hmem0
    have hp : p < items.length := by
      rcases List.get?_eq_some.mp hgp with ⟨hlt, -⟩
      exact hlt
    have htestp : typeaheadTest items input p = true := by
      unfold typeaheadTest
      rw [hgp]
      have hskip : _skipPredicateFn item0 = false := hnodis item0 hmem0
      simp [hskip, hmatch0]
    obtain ⟨k, hk, hscan⟩ := scan_cover hne hact hp
    have hex : ∃ j, j < items.length ∧
        typeaheadTest items input (scanIdx items active (1 + j)) = true :=
      ⟨k, hk, by rw [hscan]; exact htestp⟩
    obtain ⟨j, hj, htj, hminj, heqj⟩ :=
      typeaheadFrom_first hne active input items.length 1 hex
    exact ⟨j, hj, heqj, htj, hminj⟩
  · intro m idx hitems hidx hpl hjoin hsearch
    unfold ListKeyManager.typeaheadFire
    rw [if_pos (List.length_pos.mpr hpl)]
    simp only [hitems, hidx, hjoin, hsearch]
    refine ⟨rfl, ?_, by trivial⟩
    show itemAt m._items (idx : Int) = items.get? idx
    rw [hitems]
    unfold itemAt
    rw [if_neg (by omega)]
    simp

/-- C5 witness: items Banana, Apple, Apricot, no active item, buffered
letters "A","P"; the search yields index 1 and Apple becomes active. -/
theorem listKeyManager_typeahead_first_match_witness :
    ((-1 : Int) ≤ -1) ∧
    (∀ item ∈ [LKMItem.mk false (some "Banana".data), LKMItem.mk false (some "Apple".data),
        LKMItem.mk false (some "Apricot".data)], item.disabled = false) ∧
    (∃ item ∈ [LKMItem.mk false (some "Banana".data), LKMItem.mk false (some "Apple".data),
        LKMItem.mk false (some "Apricot".data)], typeaheadMatch item "AP".data = true) ∧
    (∃ k, k < ([LKMItem.mk false (some "Banana".data), LKMItem.mk false (some "Apple".data),
        LKMItem.mk false (some "Apricot".data)] : List LKMItem).length ∧
      typeaheadSearch [LKMItem.mk false (some "Banana".data), LKMItem.mk false (some "Apple".data),
          LKMItem.mk false (some "Apricot".data)] (-1) "AP".data
        = some (scanIdx [LKMItem.mk false (some "Banana".data), LKMItem.mk false (some "Apple".data),
            LKMItem.mk false (some "Apricot".data)] (-1) (1 + k)) ∧
      typeaheadTest [LKMItem.mk false (some "Banana".data), LKMItem.mk false (some "Apple".data),
          LKMItem.mk false (some "Apricot".data)] "AP".data
        (scanIdx [LKMItem.mk false (some "Banana".data), LKMItem.mk false (some "Apple".data),
          LKMItem.mk false (some "Apricot".data)] (-1) (1 + k)) = true ∧
      ∀ k' < k, typeaheadTest [LKMItem.mk false (some "Banana".data),
          LKMItem.mk false (some "Apple".data), LKMItem.mk false (some "Apricot".data)] "AP".data
        (scanIdx [LKMItem.mk false (some "Banana".data), LKMItem.mk false (some "Apple".data),
          LKMItem.mk false (some "Apricot".data)] (-1) (1 + k')) = false) ∧
    typeaheadSearch [LKMItem.mk false (some "Banana".data), LKMItem.mk false (some "Apple".data),
        LKMItem.mk false (some "Apricot".data)] (-1) "AP".data = some 1 ∧
    ((ListKeyManager.mk [LKMItem.mk false (some "Banana".data),
        LKMItem.mk false (some "Apple".data), LKMItem.mk false (some "Apricot".data)] (-1) none
        false true none [] false ["A".data, "P".data]).typeaheadFire)._activeItemIndex = 1 ∧
    ((ListKeyManager.mk [LKMItem.mk false (some "Banana".data),
        LKMItem.mk false (some "Apple".data), LKMItem.mk false (some "Apricot".data)] (-1) none
        false true none [] false ["A".data, "P".data]).typeaheadFire)._activeItem
      = some (LKMItem.mk false (some "Apple".data)) :=
  ⟨by decide, by decide, by decide,
   (listKeyManager_typeahead_first_match
      [LKMItem.mk false (some "Banana".data), LKMItem.mk false (some "Apple".data),
        LKMItem.mk false (some "Apricot".data)] (-1) "AP".data
      (by decide) (by decide) (by decide)).1,
   by decide, by decide, by decide⟩

/-! ## FocusMonitor (focus-monitor.ts): `_getFocusOrigin` / `_wasCausedByTouch`

DOM nodes are identified by their path of child positions from the root of
their tree, so `a.contains(b)` (inclusive-descendant test) is the prefix
relation on paths. -/

/-- A DOM node, as its path from the root. -/
abbrev DomNode := List Nat

/-- DOM `Node.prototype.contains`: `containsNode a b` iff `b` is an
inclusive descendant of `a`. -/
def containsNode (a b : DomNode) : Bool := a.isPrefixOf b

/-- The non-null `FocusOrigin` values. -/
inductive FocusOrigin where
  | touch
  | mouse
  | keyboard
  | program
  deriving Repr, DecidableEq

/-- The `FocusMonitor` fields read by `_getFocusOrigin`. -/
structure FocusMonitorState where
  _origin : Option FocusOrigin
  _windowFocused : Bool
  _lastFocusOrigin : Option FocusOrigin
  _lastTouchTarget : Option DomNode
  deriving Repr, DecidableEq

/-- `_wasCausedByTouch(event)` with `focusTarget = getTarget(event)`:
`lastTouchTarget instanceof Node && focusTarget instanceof Node &&
(focusTarget === lastTouchTarget || focusTarget.contains(lastTouchTarget))`. -/
def _wasCausedByTouch (s : FocusMonitorState) (focusTarget : Option DomNode) :
    Bool :=
  match s._lastTouchTarget, focusTarget with
  | some t, some ft => (ft == t) || containsNode ft t
  | _, _ => false

/-- `_getFocusOrigin(event)`. -/
def _getFocusOrigin (s : FocusMonitorState) (focusTarget : Option DomNode) :
    FocusOrigin :=
  match s._origin with
  | some origin => origin
  | none =>
    match s._windowFocused, s._lastFocusOrigin with
    | true, some last => last
    | _, _ =>
      if _wasCausedByTouch s focusTarget then FocusOrigin.touch
      else FocusOrigin.program

/-- Clause (c) of the claim, as the claim words it: `touch` when the focus
target matches or **is contained by** the last recorded touch target.  Kept
separate from `_wasCausedByTouch` so the two containment directions can be
compared. -/
def claimCausedByTouch (s : FocusMonitorState) (focusTarget : Option DomNode) :
    Bool :=
  match s._lastTouchTarget, focusTarget with
  | some t, some ft => (ft == t) || containsNode t ft
  | _, _ => false

/-- The full origin-resolution priority as the claim states it, differing
from the source only in clause (c)'s containment direction. -/
def claimFocusOrigin (s : FocusMonitorState) (focusTarget : Option DomNode) :
    FocusOrigin :=
  match s._origin with
  | some origin => origin
  | none =>
    match s._windowFocused, s._lastFocusOrigin with
    | true, some last => last
    | _, _ =>
      if claimCausedByTouch s focusTarget then FocusOrigin.touch
      else FocusOrigin.program

/-- C3 counterexample: touch on a node, focus landing on its child.  The
claim's clause (c) (focus target contained by the touch target) demands
`touch`, but the source tests `focusTarget.contains(lastTouchTarget)` — the
opposite direction — and yields `program`. -/
theorem focusMonitor_origin_counterexample :
    _getFocusOrigin
        (FocusMonitorState.mk none false none (some ([] : DomNode))) (some [0])
      = FocusOrigin.program ∧
    claimFocusOrigin
        (FocusMonitorState.mk none false none (some ([] : DomNode))) (some [0])
      = FocusOrigin.touch ∧
    containsNode ([] : DomNode) [0] = true := by
  refine ⟨rfl, rfl, rfl⟩

/-- C3 (amended): `_getFocusOrigin` resolves by priority (a) the transient
origin, (b) the last known origin if the window was just refocused, (c)
`touch` if the focus target matches or **contains** the last recorded touch
target, (d) otherwise `program`; in particular no transient origin, no
window refocus and no recorded touch target yields `program`. -/
theorem focusMonitor_origin_priority (s : FocusMonitorState)
    (f : Option DomNode) :
    (∀ o, s._origin = some o → _getFocusOrigin s f = o) ∧
    (s._origin = none → s._windowFocused = true →
      ∀ o, s._lastFocusOrigin = some o → _getFocusOrigin s f = o) ∧
    (_wasCausedByTouch s f = true ↔
      ∃ t ft, s._lastTouchTarget = some t ∧ f = some ft ∧
        (ft = t ∨ containsNode ft t = true)) ∧
    (s._origin = none → (s._windowFocused = false ∨ s._lastFocusOrigin = none) →
      (_wasCausedByTouch s f = true → _getFocusOrigin s f = FocusOrigin.touch) ∧
      (_wasCausedByTouch s f = false → _getFocusOrigin s f = FocusOrigin.program)) ∧
    (s._origin = none → s._windowFocused = false → s._lastTouchTarget = none →
      _getFocusOrigin s f = FocusOrigin.program) := by
  refine ⟨?_, ?_, ?_, ?_, ?_⟩
  · intro o h
    unfold _getFocusOrigin
    simp only [h]
  · intro h0 hwf o hlast
    unfold _getFocusOrigin
    simp only [h0, hwf, hlast]
  · cases hltt : s._lastTouchTarget <;> cases hf : f <;>
      simp [_wasCausedByTouch, hltt, hf]
  · intro h0 hrest
    have hred : _getFocusOrigin s f =
        if _wasCausedByTouch s f then FocusOrigin.touch else FocusOrigin.program := by
      unfold _getFocusOrigin
      rcases hrest with hwf | hlfo
      · simp only [h0, hwf]
      · cases hwf2 : s._windowFocused
        · simp only [h0, hwf2]
        · simp only [h0, hwf2, hlfo]
    constructor
    · intro hct
      rw [hred, if_pos hct]
    · intro hct
      rw [hred, if_neg (by simp [hct])]
  · intro h0 hwf hltt
    unfold _getFocusOrigin
    simp only [h0, hwf]
    rw [if_neg ?_]
    unfold _wasCausedByTouch
    simp [hltt]

/-- C3 witness: a pending keyboard origin wins; and with no transient
origin, no refocus and no touch target the result is `program`. -/
theorem focusMonitor_origin_priority_witness :
    _getFocusOrigin
        (FocusMonitorState.mk (some FocusOrigin.keyboard) false none none) none
      = FocusOrigin.keyboard ∧
    _getFocusOrigin (FocusMonitorState.mk none false (some FocusOrigin.mouse) none)
        (some [2])
      = FocusOrigin.program :=
  ⟨(focusMonitor_origin_priority
      (FocusMonitorState.mk (some FocusOrigin.keyboard) false none none) none).1
      FocusOrigin.keyboard rfl,
   (focusMonitor_origin_priority
      (FocusMonitorState.mk none false (some FocusOrigin.mouse) none)
      (some [2])).2.2.2.2 rfl rfl rfl⟩

/-! ## FocusTrap.attachAnchors (unnamed/part_000)

State: whether the two anchor elements have been created (`_startAnchor` /
`_endAnchor` non-null), the `_hasAttached` flag, and how many anchor
elements are currently inserted in the DOM.  Whether the region element has
a parent node at call time is an input of the call. -/

structure FocusTrapState where
  _startAnchor : Bool
  _endAnchor : Bool
  _hasAttached : Bool
  anchorsInDom : Nat
  deriving Repr, DecidableEq

/-- `attachAnchors()`: early-return `true` when already attached; otherwise
create missing anchors, and if the region element has a parent, insert both
anchors as its siblings (`insertBefore` twice) and set `_hasAttached`;
return `_hasAttached`. -/
def attachAnchors (hasParent : Bool) (s : FocusTrapState) :
    Bool × FocusTrapState :=
  if s._hasAttached then (true, s)
  else
    let s1 := { s with _startAnchor := true, _endAnchor := true }
    if hasParent then
      (true, { s1 with anchorsInDom := 2, _hasAttached := true })
    else
      (false, s1)

/-- Anchors are in the DOM exactly when the trap has attached (then there
are exactly two of them). -/
def TrapAnchorsWF (s : FocusTrapState) : Prop :=
  s.anchorsInDom = if s._hasAttached then 2 else 0

/-- C4: on a well-formed trap state, `attachAnchors` preserves
well-formedness; with no parent and not yet attached it returns `false`
leaving no anchors; with a parent it returns `true` with exactly two
anchors attached; once attached it returns `true` without touching the
state (idempotence, no re-attach). -/
theorem focusTrap_attachAnchors (s : FocusTrapState) (hasParent : Bool)
    (hwf : TrapAnchorsWF s) :
    TrapAnchorsWF (attachAnchors hasParent s).2 ∧
    (s._hasAttached = true → attachAnchors hasParent s = (true, s)) ∧
    (s._hasAttached = false → hasParent = false →
      (attachAnchors hasParent s).1 = false ∧
      (attachAnchors hasParent s).2.anchorsInDom = 0 ∧
      (attachAnchors hasParent s).2._hasAttached = false) ∧
    (hasParent = true →
      (attachAnchors hasParent s).1 = true ∧
      (attachAnchors hasParent s).2.anchorsInDom = 2 ∧
      (attachAnchors hasParent s).2._hasAttached = true) := by
  obtain ⟨sa, se, hA, nd⟩ := s
  unfold TrapAnchorsWF at hwf
  cases hA <;> cases hasParent <;>
    simp_all [attachAnchors, TrapAnchorsWF]

/-- C4 witness: a freshly constructed deferred trap attaching inside a
parent. -/
theorem focusTrap_attachAnchors_witness :
    TrapAnchorsWF (FocusTrapState.mk false false false 0) ∧
    (attachAnchors true (FocusTrapState.mk false false false 0)).1 = true ∧
    (attachAnchors true (FocusTrapState.mk false false false 0)).2.anchorsInDom = 2 ∧
    (attachAnchors true (FocusTrapState.mk false false false 0)).2._hasAttached
      = true :=
  ⟨rfl,
   ((focusTrap_attachAnchors (FocusTrapState.mk false false false 0) true
       rfl).2.2.2 rfl).1,
   ((focusTrap_attachAnchors (FocusTrapState.mk false false false 0) true
       rfl).2.2.2 rfl).2.1,
   ((focusTrap_attachAnchors (FocusTrapState.mk false false false 0) true
       rfl).2.2.2 rfl).2.2⟩

end CdkA11y
